import Mathlib

/-!
Shallow embedding of the `console-monkey-patch` engine
(`src/console-monkey-patch.ts`, reproduced in `src/README.md`, together with
`src/types.ts`).

The JavaScript value universe is modelled by `JSVal`: atoms (strings, numbers,
booleans, `null`, function references) plus one level of plain objects and
arrays of atoms — enough to express every value the engine's claims exercise.
Stateful parts of the class (`this.context`, `this.timers`,
`this.originalUnpatchedConsoleInstance`, `this.console`) become fields of the
`ConsoleMonkeyPatch` structure, and each method becomes a state-passing
function.  Callback sinks and backing-logger methods are instrumented: every
invocation is recorded as data so that "is called exactly once with these
arguments" becomes a provable equation.  `Date.now()` and `new Error().stack`
are nondeterministic inputs and are passed as explicit parameters.
-/

/-- Atomic JavaScript values.  `afunc` is a function reference identified by a
numeric id; its behaviour is irrelevant where only its presence/callability
matters. -/
inductive JSAtom where
  | astr (s : String)
  | anum (n : Int)
  | abool (b : Bool)
  | anull
  | afunc (fid : Nat)
deriving DecidableEq, Repr

/-- JavaScript values: atoms, plain objects with atomic fields, arrays of
atoms.  One nesting level covers all values the engine's code paths branch
on (`typeof`, `JSON.stringify`, property presence). -/
inductive JSVal where
  | vatom (a : JSAtom)
  | vobj (fields : List (String × JSAtom))
  | varr (elems : List JSAtom)
deriving DecidableEq, Repr

/-- The JavaScript `typeof` operator on atoms (`typeof null` is "object"). -/
def JSAtom.typeof : JSAtom → String
  | .astr _ => "string"
  | .anum _ => "number"
  | .abool _ => "boolean"
  | .anull => "object"
  | .afunc _ => "function"

/-- The JavaScript `typeof` operator on our value universe. -/
def JSVal.typeof : JSVal → String
  | .vatom a => a.typeof
  | .vobj _ => "object"
  | .varr _ => "object"

/-- Join a list of strings with a separator, as `Array.prototype.join` does
once the elements are strings. -/
def sepJoin (sep : String) : List String → String
  | [] => ""
  | [x] => x
  | x :: y :: t => x ++ sep ++ sepJoin sep (y :: t)

/-- Concatenation of a list of strings. -/
def strConcat : List String → String
  | [] => ""
  | x :: t => x ++ strConcat t

/-- JSON string escaping for the characters our value universe can contain. -/
def jsonEscapeChar (c : Char) : String :=
  if c = '\\' then "\\\\"
  else if c = '"' then "\\\""
  else if c = '\n' then "\\n"
  else if c = '\t' then "\\t"
  else if c = '\r' then "\\r"
  else String.singleton c

/-- JSON string escaping, character by character. -/
def jsonEscape (s : String) : String :=
  strConcat (s.data.map jsonEscapeChar)

/-- `JSON.stringify` on an atom in a position where a string is produced.
Inside arrays, function values serialize to `null`. -/
def JSAtom.jsonText : JSAtom → String
  | .astr s => "\"" ++ jsonEscape s ++ "\""
  | .anum n => toString n
  | .abool b => if b then "true" else "false"
  | .anull => "null"
  | .afunc _ => "null"

/-- Whether an atom is a function value (omitted by `JSON.stringify` inside
objects). -/
def JSAtom.isFunc : JSAtom → Bool
  | .afunc _ => true
  | _ => false

/-- One `"key":value` member of a JSON object serialization. -/
def jsonField (kv : String × JSAtom) : String :=
  "\"" ++ jsonEscape kv.1 ++ "\":" ++ kv.2.jsonText

/-- `JSON.stringify` on our value universe (on values where it returns a
string; function-valued fields of objects are omitted, exactly as
`JSON.stringify` drops them). -/
def jsonStringify : JSVal → String
  | .vatom a => a.jsonText
  | .vobj fields =>
      "\x7b" ++ sepJoin "," ((fields.filter (fun kv => !kv.2.isFunc)).map jsonField) ++ "\x7d"
  | .varr elems => "[" ++ sepJoin "," (elems.map JSAtom.jsonText) ++ "]"

/-- Default string conversion of an atom, as in a template literal. For a
function value JavaScript would render its source text; the engine never
template-converts a function, so a placeholder stands in. -/
def JSAtom.templateText : JSAtom → String
  | .astr s => s
  | .anum n => toString n
  | .abool b => if b then "true" else "false"
  | .anull => "null"
  | .afunc fid => "function [" ++ toString fid ++ "]"

/-- Element conversion used by `Array.prototype.toString`: `null` and
`undefined` elements become the empty string. -/
def JSAtom.joinText : JSAtom → String
  | .anull => ""
  | a => a.templateText

/-- Default string conversion (template literal / `String(...)`) on our value
universe. -/
def JSVal.templateText : JSVal → String
  | .vatom a => a.templateText
  | .vobj _ => "[object Object]"
  | .varr elems => sepJoin "," (elems.map JSAtom.joinText)

/-- ASCII whitespace recognised by `String.prototype.trim` (the engine's
messages contain only ASCII whitespace). -/
def isWsChar (c : Char) : Bool :=
  c = ' ' || c = '\t' || c = '\n' || c = '\r' || c = '\x0b' || c = '\x0c'

/-- `String.prototype.trim`: removes leading and trailing whitespace. -/
def jsTrim (s : String) : String :=
  String.mk (((s.data.dropWhile isWsChar).reverse.dropWhile isWsChar).reverse)

/-- Trailing-whitespace-only trim (used to state the claim's own wording of
the formatting algorithm, which speaks of trimming trailing whitespace). -/
def jsTrimEnd (s : String) : String :=
  String.mk ((s.data.reverse.dropWhile isWsChar).reverse)

/-- Test whether `pat` is an initial segment of `l`. -/
def charsStartWith : List Char → List Char → Bool
  | _, [] => true
  | [], _ :: _ => false
  | c :: cs, p :: ps => c = p && charsStartWith cs ps

/-- Split a character list around the first occurrence of `pat`:
`some (before, after)` when `pat` occurs, `none` otherwise. -/
def splitFirst : List Char → List Char → Option (List Char × List Char)
  | l, pat =>
    match l with
    | [] => if pat.isEmpty then some ([], []) else none
    | c :: cs =>
      if charsStartWith (c :: cs) pat then some ([], (c :: cs).drop pat.length)
      else
        match splitFirst cs pat with
        | some (b, a) => some (c :: b, a)
        | none => none

/-- `String.prototype.includes`. -/
def strIncludes (s pat : String) : Bool :=
  (splitFirst s.data pat.data).isSome

/-- GetSubstitution of `String.prototype.replace` applied to the replacement
string.  With a string search pattern there are no capture groups, so the
special sequences are dollar-dollar (a literal dollar), dollar-ampersand (the
matched substring), dollar-backtick (the portion of the subject preceding the
match) and dollar-quote (the portion following the match); a dollar followed
by anything else — including digits, since the capture list is empty — is
left as-is. -/
def getSubstitution (matched before after : List Char) : List Char → List Char
  | [] => []
  | [c] => [c]
  | c :: d :: rest =>
      if c = '$' then
        if d = '$' then '$' :: getSubstitution matched before after rest
        else if d = '&' then matched ++ getSubstitution matched before after rest
        else if d = '\x60' then before ++ getSubstitution matched before after rest
        else if d = '\x27' then after ++ getSubstitution matched before after rest
        else c :: getSubstitution matched before after (d :: rest)
      else c :: getSubstitution matched before after (d :: rest)

/-- `String.prototype.replace` with a string pattern: replaces only the first
occurrence, applying GetSubstitution dollar-pattern processing to the
replacement string. -/
def replaceFirst (s pat rep : String) : String :=
  match splitFirst s.data pat.data with
  | some (b, a) =>
      String.mk b ++ String.mk (getSubstitution pat.data b a rep.data) ++ String.mk a
  | none => s

/-- One output destination of a `WritableContext` channel (`src/types.ts`
lines 16-20): a string accumulator, a callback function — modelled by the
list of messages it has received, so that invocation counts are provable — or
`null`/absent. -/
inductive Sink where
  | str (s : String)
  | fn (calls : List String)
  | nul
deriving DecidableEq, Repr

/-- The `WritableContext` of `src/types.ts`: a `stdout` and a `stderr`
target. -/
structure WritableContext where
  stdout : Sink
  stderr : Sink
deriving DecidableEq, Repr

/-- A property of a backing console object: either a callable method (with its
behaviour as a pure function) or a plain non-callable value. -/
inductive JSProp where
  | func (f : List JSVal → JSVal)
  | val (v : JSVal)

/-- A JavaScript object viewed as a map from property name to property. -/
abbrev ObjMap := String → Option JSProp

/-- The object with no own properties (`{...undefined}`). -/
def emptyObj : ObjMap := fun _ => none

/-- A heap giving object identities, so that mutating a backing object after
the constructor's `{...consoleInstance}` snapshot is expressible. -/
abbrev Heap := Nat → ObjMap

/-- Overwrite the object stored at `oid`. -/
def heapWrite (h : Heap) (oid : Nat) (m : ObjMap) : Heap :=
  fun i => if i = oid then m else h i

/-- The empty heap. -/
def emptyHeap : Heap := fun _ => emptyObj

/-- The shape of `this.console`: either the synthesized default console
(`createDefaultConsole`) or a proxy over a backing object
(`createProxy`). -/
inductive ConsoleSurface where
  | defaultConsole (hookMode : Bool)
  | proxy (target : Nat) (hookMode : Bool)
deriving DecidableEq, Repr

/-- The mutable instance state of class `ConsoleMonkeyPatch`
(`src/README.md` lines 135-152): the active context, the timer registry, the
exposed console surface, and the `{...consoleInstance}` snapshot
`originalUnpatchedConsoleInstance`. -/
structure ConsoleMonkeyPatch where
  context : WritableContext
  timers : List (String × Int)
  console : ConsoleSurface
  original : ObjMap

/-- The constructor (`src/README.md` lines 140-152):
`this.context = context || { stdout: '', stderr: '' }`, empty timer map,
`this.originalUnpatchedConsoleInstance = { ...consoleInstance }` (a copy of
the heap object's current property map), and the console surface is a proxy
when a console instance is supplied, the synthesized default console
otherwise. -/
def mkConsoleMonkeyPatch (heap : Heap) (context : Option WritableContext)
    (consoleRef : Option Nat) (hookMode : Bool) : ConsoleMonkeyPatch :=
  { context := context.getD { stdout := .str "", stderr := .str "" }
    timers := []
    original :=
      match consoleRef with
      | some oid => heap oid
      | none => emptyObj
    console :=
      match consoleRef with
      | some oid => .proxy oid hookMode
      | none => .defaultConsole hookMode }

/-- `writeToTarget` (`src/README.md` lines 328-336): pick `stderr` for
`error`/`warn` and `stdout` otherwise; a function target is invoked with the
message (recorded on its call list), a string target gets the message plus a
newline appended, anything else is ignored. -/
def isErrChannel (method : String) : Bool :=
  method = "error" || method = "warn"

/-- Perform one formatted write on the active context, as `writeToTarget`
does. -/
def writeToTarget (method : String) (message : String) (ctx : WritableContext) :
    WritableContext :=
  let target := if isErrChannel method then ctx.stderr else ctx.stdout
  match target with
  | .fn calls =>
      if isErrChannel method then { ctx with stderr := .fn (calls ++ [message]) }
      else { ctx with stdout := .fn (calls ++ [message]) }
  | .str s =>
      if isErrChannel method then { ctx with stderr := .str (s ++ message ++ "\n") }
      else { ctx with stdout := .str (s ++ message ++ "\n") }
  | .nul => ctx

/-- One iteration of the message-building loop in `logOrSend`
(`src/README.md` lines 253-256): object-typed arguments are
`JSON.stringify`ed with no separator, all other arguments are template
interpolated followed by one space. -/
def formatPiece (arg : JSVal) : String :=
  if arg.typeof = "object" then jsonStringify arg else arg.templateText ++ " "

/-- The full formatted line of `logOrSend` (`src/README.md` lines 251-258):
accumulate the pieces, `trim()` the result, and prepend "LOG: ". -/
def formatLine (args : List JSVal) : String :=
  "LOG: " ++ jsTrim (args.foldl (fun m a => m ++ formatPiece a) "")

/-- Result of one engine operation: the new instance state, the list of
invocations `(method, args)` performed on snapshot (backing) methods during
the operation, and the operation's return value (`none` models returning
`undefined`). -/
structure OpResult where
  state : ConsoleMonkeyPatch
  hookCalls : List (String × List JSVal)
  ret : Option JSVal

/-- `logOrSend` (`src/README.md` lines 249-268): format the arguments, write
the line via `writeToTarget`, and — when hook mode is on and the captured
snapshot has a truthy, function-typed entry for the method — also invoke that
original method with the original arguments and return its result.  A present
but non-callable entry passes the truthiness test yet fails the
`typeof === 'function'` check, so nothing is invoked. -/
def logOrSend (method : String) (hookMode : Bool) (args : List JSVal)
    (st : ConsoleMonkeyPatch) : OpResult :=
  let formattedMessage := formatLine args
  let st1 := { st with context := writeToTarget method formattedMessage st.context }
  if hookMode then
    match st.original method with
    | some (.func f) => { state := st1, hookCalls := [(method, args)], ret := some (f args) }
    | _ => { state := st1, hookCalls := [], ret := none }
  else { state := st1, hookCalls := [], ret := none }

/-- The default console's `table` (`src/README.md` lines 173-179):
`JSON.stringify` the tabular argument, then delegate to
`logOrSend('table', hookMode)` with the serialized text in front of the
remaining arguments. -/
def tableImpl (hookMode : Bool) (data : JSVal) (optionalParams : List JSVal)
    (st : ConsoleMonkeyPatch) : OpResult :=
  let formattedData := jsonStringify data
  logOrSend "table" hookMode (JSVal.vatom (.astr formattedData) :: optionalParams) st

/-- The `typeof data[0] === 'string' && data[0].includes('%o')` test of the
default console's `assert`: returns the format string when it passes. -/
def assertFirstIsFormat (data : List JSVal) : Option String :=
  match data with
  | JSVal.vatom (JSAtom.astr s) :: _ => if strIncludes s "%o" then some s else none
  | _ => none

/-- `JSON.stringify` as consumed by `String.prototype.replace`: when
`JSON.stringify` returns `undefined` (for a function value, or when `data[1]`
is absent) the replacement coerces to the text "undefined". -/
def jsonForReplaceOpt : Option JSVal → String
  | some (JSVal.vatom (JSAtom.afunc _)) => "undefined"
  | some v => jsonStringify v
  | none => "undefined"

/-- One element of `data.map(arg => typeof arg === 'object' ?
JSON.stringify(arg) : arg).join(' ')` in the default console's `assert`. -/
def assertJoinPiece (arg : JSVal) : String :=
  if arg.typeof = "object" then jsonStringify arg else arg.templateText

/-- The failure message built by the default console's `assert`
(`src/README.md` lines 182-194). -/
def assertMessage (data : List JSVal) : String :=
  match assertFirstIsFormat data with
  | some formatStr =>
      "Assertion failed: " ++ replaceFirst formatStr "%o" (jsonForReplaceOpt (data.get? 1))
  | none => "Assertion failed: " ++ sepJoin " " (data.map assertJoinPiece)

/-- The default console's `assert` (`src/README.md` lines 180-198): a true
condition is a complete no-op; a false condition sends the failure message
through `logOrSend('log', hookMode)`. -/
def assertImpl (hookMode : Bool) (condition : Bool) (data : List JSVal)
    (st : ConsoleMonkeyPatch) : OpResult :=
  if condition then { state := st, hookCalls := [], ret := none }
  else logOrSend "log" hookMode [JSVal.vatom (.astr (assertMessage data))] st

/-- The default console's `time` (`src/README.md` lines 199-205): if the
label is already registered, report via `this.console.error` — which on the
synthesized surface is `logOrSend('error', hookMode)` — and change nothing
else; otherwise record the current timestamp under the label. -/
def timeImpl (hookMode : Bool) (label : JSVal) (now : Int)
    (st : ConsoleMonkeyPatch) : OpResult :=
  let labelStr := label.templateText
  if (st.timers.lookup labelStr).isSome then
    logOrSend "error" hookMode
      [JSVal.vatom (.astr ("Timer \x27" ++ labelStr ++ "\x27 already exists"))] st
  else
    { state := { st with timers := st.timers ++ [(labelStr, now)] }, hookCalls := [], ret := none }

/-- The default console's `timeEnd` (`src/README.md` lines 206-215): when the
label is registered, compute the elapsed milliseconds, delete the entry, and
emit via `this.console.log` — `logOrSend('log', hookMode)` on the synthesized
surface; otherwise report non-existence via the error path. -/
def timeEndImpl (hookMode : Bool) (label : JSVal) (now : Int)
    (st : ConsoleMonkeyPatch) : OpResult :=
  let labelStr := label.templateText
  match st.timers.lookup labelStr with
  | some startTime =>
      let duration := now - startTime
      let st1 := { st with timers := st.timers.filter (fun p => p.1 != labelStr) }
      logOrSend "log" hookMode
        [JSVal.vatom (.astr (labelStr ++ ": " ++ toString duration ++ "ms"))] st1
  | none =>
      logOrSend "error" hookMode
        [JSVal.vatom (.astr ("Timer \x27" ++ labelStr ++ "\x27 does not exist"))] st

/-- The default console's `trace` (`src/README.md` lines 229-232):
`new Error().stack || 'No stack trace available'` (`stack` is a
nondeterministic input; `none` models an absent stack, and the empty string
is falsy) appended as a trailing argument of `logOrSend('trace',
hookMode)`. -/
def traceImpl (hookMode : Bool) (args : List JSVal) (stack : Option String)
    (st : ConsoleMonkeyPatch) : OpResult :=
  let traceMessage :=
    match stack with
    | some s => if s = "" then "No stack trace available" else s
    | none => "No stack trace available"
  logOrSend "trace" hookMode (args ++ [JSVal.vatom (.astr traceMessage)]) st

/-- What a property access on the proxy of `createProxy` evaluates to. -/
inductive ProxyMember where
  | assertSpecial
  | origFn (f : List JSVal → JSVal)
  | hooked (f : List JSVal → JSVal)
  | passthrough (p : Option JSProp)

/-- The proxy `get` trap of `createProxy` (`src/README.md` lines 286-315):
`assert` is always special-cased first; a function-valued property is
returned unmodified when hook mode is off and wrapped when it is on; anything
else falls through to `Reflect.get`. -/
def proxyGet (target : ObjMap) (hookMode : Bool) (prop : String) : ProxyMember :=
  if prop = "assert" then .assertSpecial
  else
    match target prop with
    | some (JSProp.func f) => if hookMode then .hooked f else .origFn f
    | p => .passthrough p

/-- Invoking the hook-mode wrapper returned by the proxy (`src/README.md`
lines 303-309): apply the original method to the caller's arguments, then —
in hook mode — apply the same method once more to the first result as its
single argument, and return the first result.  The second component lists
the argument lists of the invocations performed on the original method. -/
def proxyWrappedCall (f : List JSVal → JSVal) (hookMode : Bool) (args : List JSVal) :
    JSVal × List (List JSVal) :=
  let output := f args
  if hookMode then (output, [args, [output]]) else (output, [args])

/-- The proxy's special `assert` closure (`src/README.md` lines 290-296): a
failed assertion is routed through `logOrSend('log', hookMode)` with the
fixed first argument "Assertion failed:"; the target's own `assert` is never
invoked. -/
def proxyAssert (hookMode : Bool) (condition : Bool) (data : List JSVal)
    (st : ConsoleMonkeyPatch) : OpResult :=
  if condition then { state := st, hookCalls := [], ret := none }
  else logOrSend "log" hookMode (JSVal.vatom (.astr "Assertion failed:") :: data) st

/-- `patch` (`src/README.md` lines 349-361): a supplied context replaces the
active one wholesale; a supplied console instance re-derives the proxy
surface; omitted parameters change nothing, and neither the timer registry
nor the constructor's method snapshot is touched. -/
def patch (context : Option WritableContext) (consoleRef : Option Nat) (hookMode : Bool)
    (st : ConsoleMonkeyPatch) : ConsoleMonkeyPatch :=
  let st1 :=
    match context with
    | some c => { st with context := c }
    | none => st
  match consoleRef with
  | some oid => { st1 with console := .proxy oid hookMode }
  | none => st1

/-- Mutation of the backing object after construction: the heap cell is
overwritten; the engine value is untouched (it holds the
`{...consoleInstance}` copy). -/
def mutateObject (w : ConsoleMonkeyPatch × Heap) (oid : Nat) (m : ObjMap) :
    ConsoleMonkeyPatch × Heap :=
  (w.1, heapWrite w.2 oid m)

/-- `isConsoleInstance` (`src/README.md` lines 372-374):
`obj !== null && typeof obj === 'object' && 'log' in obj && 'error' in obj`.
On our universe the only values that are non-null and object-typed are plain
objects and arrays; arrays have no own property named `log` or `error`, so
only a plain object with both keys passes. -/
def isConsoleInstance (v : JSVal) : Bool :=
  match v with
  | JSVal.vobj fields => (fields.lookup "log").isSome && (fields.lookup "error").isSome
  | _ => false

/-- Modelled from claim C1's wording of the formatting algorithm: every
positional argument stringified (object-typed JSON-serialized, others default
string form), each followed by a single space, trailing whitespace trimmed,
and the fixed "LOG: " marker prepended. -/
def claimStringifyArg (a : JSVal) : String :=
  if a.typeof = "object" then jsonStringify a else a.templateText

/-- Modelled from claim C1's wording: the line the claim's algorithm would
produce. -/
def claimFormatLine (args : List JSVal) : String :=
  "LOG: " ++ jsTrimEnd (strConcat (args.map (fun a => claimStringifyArg a ++ " ")))

/-- Modelled from claim C9's wording: the value exposes a property named
`k`. -/
def claimHasProp (v : JSVal) (k : String) : Bool :=
  match v with
  | JSVal.vobj fields => (fields.lookup k).isSome
  | _ => false

/-- Modelled from claim C9's wording: the value exposes a property named `k`
implemented as a callable. -/
def claimHasCallable (v : JSVal) (k : String) : Bool :=
  match v with
  | JSVal.vobj fields =>
      match fields.lookup k with
      | some (JSAtom.afunc _) => true
      | _ => false
  | _ => false

/-- Modelled from claim C9's amended wording: the value is non-null and
object-typed. -/
def claimIsNonNullObject (v : JSVal) : Bool :=
  (v != JSVal.vatom JSAtom.anull) && (v.typeof == "object")

/-- Concrete argument list separating the source's formatting from claim C1's
wording: an object followed by a primitive. -/
def c1CeArgs : List JSVal :=
  [JSVal.vobj [("a", JSAtom.anum 1)], JSVal.vatom (JSAtom.astr "x")]

/-- An arbitrary concrete method behaviour used in witness states. -/
def demoFn : List JSVal → JSVal := fun _ => JSVal.varr []

/-- A concrete backing object exposing `log` and `assert` as callables. -/
def demoObj : ObjMap :=
  fun s => if s = "log" then some (JSProp.func demoFn)
           else if s = "assert" then some (JSProp.func demoFn) else none

/-- A backing object exposing every property as a callable. -/
def allFuncObj : ObjMap := fun _ => some (JSProp.func demoFn)

/-- A concrete engine state with empty string accumulators and one registered
timer. -/
def demoEngine : ConsoleMonkeyPatch :=
  { context := { stdout := Sink.str "", stderr := Sink.str "" }
    timers := [("a", 5)]
    console := ConsoleSurface.defaultConsole false
    original := emptyObj }

/-- A concrete hook-mode engine whose captured snapshot has every method. -/
def c7Engine : ConsoleMonkeyPatch :=
  { context := { stdout := Sink.str "", stderr := Sink.str "" }
    timers := []
    console := ConsoleSurface.defaultConsole true
    original := allFuncObj }

/-- A concrete value whose `log` and `error` properties exist but are not
callable. -/
def c9Value : JSVal :=
  JSVal.vobj [("log", JSAtom.anum 1), ("error", JSAtom.anum 2)]

/-- Appending distributes over the underlying character lists. -/
theorem strDataAppend (a b : String) : (a ++ b).data = a.data ++ b.data := by
  cases a; cases b; rfl

/-- String append is associative. -/
theorem strAppendAssoc (a b c : String) : a ++ b ++ c = a ++ (b ++ c) := by
  apply String.ext
  simp [strDataAppend, List.append_assoc]

/-- The empty string is a left identity. -/
theorem strEmptyAppend (s : String) : "" ++ s = s := by
  cases s; rfl

/-- The empty string is a right identity. -/
theorem strAppendEmpty (s : String) : s ++ "" = s := by
  apply String.ext
  simp [strDataAppend]

/-- A string rebuilt from its characters is itself. -/
theorem strMkData (s : String) : String.mk s.data = s := by
  cases s; rfl

/-- Trimming absorbs one trailing space. -/
theorem jsTrim_append_space (s : String) : jsTrim (s ++ " ") = jsTrim s := by
  unfold jsTrim
  rw [strDataAppend]
  rw [List.dropWhile_append]
  by_cases h : (s.data.dropWhile isWsChar).isEmpty
  · rw [List.isEmpty_iff] at h
    simp [h, List.dropWhile, isWsChar]
  · simp only [h, if_false, Bool.false_eq_true]
    have harr : (" " : String).data = [' '] := rfl
    simp [harr, List.reverse_append, List.dropWhile_cons, isWsChar]

/-- The first character is not whitespace. -/
def headNonWs (s : String) : Bool :=
  match s.data with
  | [] => false
  | c :: _ => !isWsChar c

/-- The last character is not whitespace. -/
def lastNonWs (s : String) : Bool :=
  match s.data.reverse with
  | [] => false
  | c :: _ => !isWsChar c

/-- Trimming a string with non-whitespace first and last characters is the
identity. -/
theorem jsTrim_eq_self (s : String) (h1 : headNonWs s = true) (h2 : lastNonWs s = true) :
    jsTrim s = s := by
  unfold jsTrim
  unfold headNonWs at h1
  unfold lastNonWs at h2
  cases hd : s.data with
  | nil => rw [hd] at h1; simp at h1
  | cons c t =>
      rw [hd] at h1
      simp only [Bool.not_eq_true'] at h1
      rw [List.dropWhile_cons, h1]
      simp only [Bool.false_eq_true, if_false]
      cases hr : (c :: t).reverse with
      | nil => simp at hr
      | cons d u =>
          rw [hd, hr] at h2
          simp only [Bool.not_eq_true'] at h2
          rw [List.dropWhile_cons, h2]
          simp only [Bool.false_eq_true, if_false]
          rw [← hr, List.reverse_reverse, ← hd, strMkData]

/-- A non-whitespace head survives prepending to any suffix. -/
theorem headNonWs_append (a b : String) (h : headNonWs a = true) :
    headNonWs (a ++ b) = true := by
  unfold headNonWs at *
  rw [strDataAppend]
  cases hd : a.data with
  | nil => rw [hd] at h; simp at h
  | cons c t => rw [hd] at h; simpa using h

/-- A non-whitespace last character survives appending to any prefix. -/
theorem lastNonWs_append (a b : String) (h : lastNonWs b = true) :
    lastNonWs (a ++ b) = true := by
  unfold lastNonWs at *
  rw [strDataAppend, List.reverse_append]
  cases hd : b.data.reverse with
  | nil => rw [hd] at h; simp at h
  | cons c t => rw [hd] at h; simpa using h

/-- Accumulating fold over pieces equals the initial value followed by the
concatenation of the pieces. -/
theorem foldl_append_init (f : JSVal → String) (args : List JSVal) (init : String) :
    args.foldl (fun m a => m ++ f a) init = init ++ strConcat (args.map f) := by
  induction args generalizing init with
  | nil => simp [strConcat, strAppendEmpty]
  | cons a t ih =>
      simp only [List.foldl_cons, List.map_cons, strConcat]
      rw [ih, strAppendAssoc]

/-- Concatenating space-terminated pieces of a nonempty list is the
space-separated join followed by one space. -/
theorem strConcat_spaced (x : String) (ts : List String) :
    strConcat ((x :: ts).map (fun t => t ++ " ")) = sepJoin " " (x :: ts) ++ " " := by
  induction ts generalizing x with
  | nil => simp [strConcat, sepJoin, strAppendEmpty]
  | cons y u ih =>
      simp only [List.map_cons, strConcat, sepJoin] at *
      rw [ih y, ← strAppendAssoc]

/-- The formatted line of a single string argument. -/
theorem formatLine_single_str (m : String) :
    formatLine [JSVal.vatom (JSAtom.astr m)] = "LOG: " ++ jsTrim m := by
  unfold formatLine
  simp only [List.foldl_cons, List.foldl_nil]
  have hp : formatPiece (JSVal.vatom (JSAtom.astr m)) = m ++ " " := rfl
  rw [hp, strEmptyAppend, jsTrim_append_space]

/-- The formatted line of a single string argument whose ends are not
whitespace. -/
theorem formatLine_single_clean (m : String) (h1 : headNonWs m = true)
    (h2 : lastNonWs m = true) :
    formatLine [JSVal.vatom (JSAtom.astr m)] = "LOG: " ++ m := by
  rw [formatLine_single_str, jsTrim_eq_self m h1 h2]

/-- The state produced by `logOrSend` is the input state with the formatted
line written to the context, whatever the hook branch does. -/
theorem logOrSend_state (method : String) (hm : Bool) (args : List JSVal)
    (st : ConsoleMonkeyPatch) :
    (logOrSend method hm args st).state
      = { st with context := writeToTarget method (formatLine args) st.context } := by
  unfold logOrSend
  cases hm with
  | false => rfl
  | true =>
      cases h : st.original method with
      | none => simp [h]
      | some p => cases p <;> simp [h]

/-- Hook branch of `logOrSend` when the snapshot has the method as a
callable. -/
theorem logOrSend_hookCalls_func (method : String) (args : List JSVal)
    (st : ConsoleMonkeyPatch) (f : List JSVal → JSVal)
    (h : st.original method = some (JSProp.func f)) :
    (logOrSend method true args st).hookCalls = [(method, args)] := by
  unfold logOrSend
  simp [h]

/-- Writing on the standard channel when the `stdout` sink is a string. -/
theorem writeToTarget_std_str (method msg : String) (ctx : WritableContext) (so : String)
    (hch : isErrChannel method = false) (hso : ctx.stdout = Sink.str so) :
    writeToTarget method msg ctx = { ctx with stdout := Sink.str (so ++ msg ++ "\n") } := by
  unfold writeToTarget
  simp [hch, hso]

/-- Writing on the standard channel when the `stdout` sink is a callback. -/
theorem writeToTarget_std_fn (method msg : String) (ctx : WritableContext)
    (calls : List String)
    (hch : isErrChannel method = false) (hso : ctx.stdout = Sink.fn calls) :
    writeToTarget method msg ctx = { ctx with stdout := Sink.fn (calls ++ [msg]) } := by
  unfold writeToTarget
  simp [hch, hso]

/-- Writing on the standard channel when the `stdout` sink is absent. -/
theorem writeToTarget_std_nul (method msg : String) (ctx : WritableContext)
    (hch : isErrChannel method = false) (hso : ctx.stdout = Sink.nul) :
    writeToTarget method msg ctx = ctx := by
  unfold writeToTarget
  simp [hch, hso]

/-- Writing on the error channel when the `stderr` sink is a string. -/
theorem writeToTarget_err_str (method msg : String) (ctx : WritableContext) (se : String)
    (hch : isErrChannel method = true) (hse : ctx.stderr = Sink.str se) :
    writeToTarget method msg ctx = { ctx with stderr := Sink.str (se ++ msg ++ "\n") } := by
  unfold writeToTarget
  simp [hch, hse]

/-- Writing on the error channel when the `stderr` sink is a callback. -/
theorem writeToTarget_err_fn (method msg : String) (ctx : WritableContext)
    (calls : List String)
    (hch : isErrChannel method = true) (hse : ctx.stderr = Sink.fn calls) :
    writeToTarget method msg ctx = { ctx with stderr := Sink.fn (calls ++ [msg]) } := by
  unfold writeToTarget
  simp [hch, hse]

/-- Writing on the error channel when the `stderr` sink is absent. -/
theorem writeToTarget_err_nul (method msg : String) (ctx : WritableContext)
    (hch : isErrChannel method = true) (hse : ctx.stderr = Sink.nul) :
    writeToTarget method msg ctx = ctx := by
  unfold writeToTarget
  simp [hch, hse]

/-- A key filtered out of an association list cannot be looked up. -/
theorem lookup_filter_ne (L : String) (l : List (String × Int)) :
    (l.filter (fun p => p.1 != L)).lookup L = none := by
  induction l with
  | nil => rfl
  | cons hd t ih =>
      obtain ⟨k, v⟩ := hd
      rw [List.filter_cons]
      by_cases h : k = L
      · simp [h, ih]
      · have hk : ((k, v).1 != L) = true := by simp [h]
        have hLk : (L == k) = false := by
          simp [beq_eq_false_iff_ne]
          exact fun hh => h hh.symm
        simp [hk, List.lookup, hLk, ih]

/-- Claim C2: when the engine is constructed with no context and no backing
logger, it synthesizes a default context whose two channels are non-null
string accumulators initialized to the empty string, exposes the synthesized
default surface, and a single `log("hi")` on it leaves the standard-channel
accumulator exactly "LOG: hi\n". -/
theorem c2_default_context_synthesis :
    (mkConsoleMonkeyPatch emptyHeap none none false).context
        = { stdout := Sink.str "", stderr := Sink.str "" }
    ∧ (mkConsoleMonkeyPatch emptyHeap none none false).console
        = ConsoleSurface.defaultConsole false
    ∧ (logOrSend "log" false [JSVal.vatom (JSAtom.astr "hi")]
          (mkConsoleMonkeyPatch emptyHeap none none false)).state.context.stdout
        = Sink.str "LOG: hi\n" := by
  refine ⟨rfl, rfl, ?_⟩
  decide

/-- Claim C1 counterexample: on an object-typed argument followed by a
primitive, the code's formatted line ("LOG: \x7b"a":1\x7dx") differs from the
line the claim's algorithm prescribes ("LOG: \x7b"a":1\x7d x"), because the
code appends object-typed arguments without a trailing space. -/
theorem c1_formatting_counterexample :
    formatLine c1CeArgs ≠ claimFormatLine c1CeArgs := by
  decide

/-- Claim C1 amended: the produced line is "LOG: " prepended to the
concatenation where object-typed arguments contribute their JSON
serialization with no following space and every other argument contributes
its default string form followed by one space, the whole trimmed of leading
and trailing whitespace; in particular, for argument lists containing only
primitives the line is "LOG: " followed by the space-joined string forms,
trimmed. -/
theorem c1_formatting_amended (args : List JSVal) :
    formatLine args = "LOG: " ++ jsTrim (strConcat (args.map formatPiece))
    ∧ ((∀ a ∈ args, a.typeof ≠ "object") →
        formatLine args = "LOG: " ++ jsTrim (sepJoin " " (args.map JSVal.templateText))) := by
  constructor
  · unfold formatLine
    rw [foldl_append_init, strEmptyAppend]
  · intro h
    unfold formatLine
    rw [foldl_append_init, strEmptyAppend]
    have hmap : args.map formatPiece = args.map (fun a => a.templateText ++ " ") :=
      List.map_congr_left (fun a ha => by simp [formatPiece, h a ha])
    rw [hmap]
    cases args with
    | nil => rfl
    | cons x t =>
        have hm2 : (x :: t).map (fun a => JSVal.templateText a ++ " ")
            = ((x :: t).map JSVal.templateText).map (fun s => s ++ " ") := by
          rw [List.map_map]
          rfl
        rw [hm2]
        have hsp := strConcat_spaced (JSVal.templateText x) (t.map JSVal.templateText)
        simp only [List.map_cons] at hsp ⊢
        rw [hsp, jsTrim_append_space]

/-- Witness for the amended claim C1 on a concrete primitive-only list. -/
theorem c1_formatting_amended_witness :
    (∀ a ∈ ([JSVal.vatom (JSAtom.astr "a"), JSVal.vatom (JSAtom.anum 2)] : List JSVal),
        a.typeof ≠ "object")
    ∧ formatLine [JSVal.vatom (JSAtom.astr "a"), JSVal.vatom (JSAtom.anum 2)]
        = "LOG: " ++ jsTrim (sepJoin " "
            (([JSVal.vatom (JSAtom.astr "a"), JSVal.vatom (JSAtom.anum 2)] : List JSVal).map
              JSVal.templateText)) :=
  ⟨by decide, (c1_formatting_amended _).2 (by decide)⟩

/-- Claim C10: a formatted write routed to a channel invokes a function sink
exactly once with the "LOG: "-prefixed line and no trailing newline, appends
the line plus exactly one newline to a string sink, and does nothing at all
when the resolved sink is neither (e.g. null). -/
theorem c10_sink_write_asymmetry (method : String) (args : List JSVal) (ctx : WritableContext) :
    (∀ calls, isErrChannel method = false → ctx.stdout = Sink.fn calls →
        writeToTarget method (formatLine args) ctx
          = { ctx with stdout := Sink.fn (calls ++ [formatLine args]) })
    ∧ (∀ s, isErrChannel method = false → ctx.stdout = Sink.str s →
        writeToTarget method (formatLine args) ctx
          = { ctx with stdout := Sink.str (s ++ formatLine args ++ "\n") })
    ∧ (isErrChannel method = false → ctx.stdout = Sink.nul →
        writeToTarget method (formatLine args) ctx = ctx)
    ∧ (∀ calls, isErrChannel method = true → ctx.stderr = Sink.fn calls →
        writeToTarget method (formatLine args) ctx
          = { ctx with stderr := Sink.fn (calls ++ [formatLine args]) })
    ∧ (∀ s, isErrChannel method = true → ctx.stderr = Sink.str s →
        writeToTarget method (formatLine args) ctx
          = { ctx with stderr := Sink.str (s ++ formatLine args ++ "\n") })
    ∧ (isErrChannel method = true → ctx.stderr = Sink.nul →
        writeToTarget method (formatLine args) ctx = ctx) :=
  ⟨fun calls hch hso => writeToTarget_std_fn _ _ _ calls hch hso,
   fun s hch hso => writeToTarget_std_str _ _ _ s hch hso,
   fun hch hso => writeToTarget_std_nul _ _ _ hch hso,
   fun calls hch hse => writeToTarget_err_fn _ _ _ calls hch hse,
   fun s hch hse => writeToTarget_err_str _ _ _ s hch hse,
   fun hch hse => writeToTarget_err_nul _ _ _ hch hse⟩

/-- Witness for claim C10 at concrete sinks: a callback standard sink and an
absent error sink. -/
theorem c10_sink_write_asymmetry_witness :
    isErrChannel "log" = false
    ∧ writeToTarget "log" (formatLine [JSVal.vatom (JSAtom.astr "hi")])
        { stdout := Sink.fn [], stderr := Sink.nul }
      = { stdout := Sink.fn ([] ++ [formatLine [JSVal.vatom (JSAtom.astr "hi")]]),
          stderr := Sink.nul }
    ∧ writeToTarget "error" (formatLine [JSVal.vatom (JSAtom.astr "hi")])
        { stdout := Sink.str "", stderr := Sink.nul }
      = { stdout := Sink.str "", stderr := Sink.nul } :=
  ⟨rfl,
   (c10_sink_write_asymmetry "log" [JSVal.vatom (JSAtom.astr "hi")]
      { stdout := Sink.fn [], stderr := Sink.nul }).1 [] rfl rfl,
   (c10_sink_write_asymmetry "error" [JSVal.vatom (JSAtom.astr "hi")]
      { stdout := Sink.str "", stderr := Sink.nul }).2.2.2.2.2 rfl rfl⟩

/-- Claim C3: in wrapping mode with hook mode off, every function-valued
property other than `assert` is returned referentially unmodified by the
proxy; `assert` is special-cased regardless of hook mode, and a failed
assertion is routed through the standard-log path with the fixed
"Assertion failed:" first argument — the snapshot invocations it performs are
only `log` calls, and the target's own `assert` is never reached. -/
theorem c3_passthrough_and_assert_special (m : ObjMap) :
    (∀ prop f, prop ≠ "assert" → m prop = some (JSProp.func f) →
        proxyGet m false prop = ProxyMember.origFn f)
    ∧ (∀ hm, proxyGet m hm "assert" = ProxyMember.assertSpecial)
    ∧ (∀ hm data st so, st.context.stdout = Sink.str so →
        (proxyAssert hm false data st).state.context.stdout
            = Sink.str (so ++ formatLine (JSVal.vatom (JSAtom.astr "Assertion failed:") :: data)
                ++ "\n")
          ∧ (∀ c ∈ (proxyAssert hm false data st).hookCalls, c.1 = "log")) := by
  refine ⟨?_, ?_, ?_⟩
  · intro prop f hne hp
    unfold proxyGet
    rw [if_neg hne, hp]
    rfl
  · intro hm
    unfold proxyGet
    rw [if_pos rfl]
  · intro hm data st so hso
    have hPA : proxyAssert hm false data st
        = logOrSend "log" hm (JSVal.vatom (JSAtom.astr "Assertion failed:") :: data) st := rfl
    constructor
    · rw [hPA, logOrSend_state]
      have hw := writeToTarget_std_str "log"
        (formatLine (JSVal.vatom (JSAtom.astr "Assertion failed:") :: data)) st.context so rfl hso
      rw [hw]
    · rw [hPA]
      unfold logOrSend
      cases hm with
      | false => simp
      | true =>
          cases hor : st.original "log" with
          | none => simp [hor]
          | some p => cases p <;> simp [hor]

/-- Witness for claim C3 at a concrete backing object and a concrete failed
assertion. -/
theorem c3_passthrough_and_assert_special_witness :
    ("log" ≠ "assert")
    ∧ demoObj "log" = some (JSProp.func demoFn)
    ∧ proxyGet demoObj false "log" = ProxyMember.origFn demoFn
    ∧ proxyGet demoObj true "assert" = ProxyMember.assertSpecial
    ∧ demoEngine.context.stdout = Sink.str ""
    ∧ (proxyAssert false false [JSVal.vatom (JSAtom.anum 3)] demoEngine).state.context.stdout
        = Sink.str ("" ++ formatLine [JSVal.vatom (JSAtom.astr "Assertion failed:"),
            JSVal.vatom (JSAtom.anum 3)] ++ "\n") := by
  refine ⟨by decide, rfl, ?_, ?_, rfl, ?_⟩
  · exact (c3_passthrough_and_assert_special demoObj).1 "log" demoFn (by decide) rfl
  · exact (c3_passthrough_and_assert_special demoObj).2.1 true
  · exact ((c3_passthrough_and_assert_special demoObj).2.2 false
      [JSVal.vatom (JSAtom.anum 3)] demoEngine "" rfl).1

/-- Claim C5: in wrapping mode with hook mode on, a function-valued property
other than `assert` becomes a wrapper that invokes the original method with
the caller's arguments, re-invokes the same original method exactly once more
with the first call's result as its single argument, and returns the first
call's result. -/
theorem c5_hook_wrapping_double_invoke (m : ObjMap) (prop : String)
    (f : List JSVal → JSVal) (args : List JSVal)
    (h1 : prop ≠ "assert") (h2 : m prop = some (JSProp.func f)) :
    proxyGet m true prop = ProxyMember.hooked f
    ∧ proxyWrappedCall f true args = (f args, [args, [f args]]) := by
  constructor
  · unfold proxyGet
    rw [if_neg h1, h2]
    rfl
  · rfl

/-- Witness for claim C5 at a concrete method and argument list. -/
theorem c5_hook_wrapping_double_invoke_witness :
    ("warn" ≠ "assert")
    ∧ allFuncObj "warn" = some (JSProp.func demoFn)
    ∧ proxyGet allFuncObj true "warn" = ProxyMember.hooked demoFn
    ∧ proxyWrappedCall demoFn true [JSVal.vatom (JSAtom.anum 7)]
        = (demoFn [JSVal.vatom (JSAtom.anum 7)],
           [[JSVal.vatom (JSAtom.anum 7)], [demoFn [JSVal.vatom (JSAtom.anum 7)]]]) := by
  refine ⟨by decide, rfl, ?_, ?_⟩
  · exact (c5_hook_wrapping_double_invoke allFuncObj "warn" demoFn
      [JSVal.vatom (JSAtom.anum 7)] (by decide) rfl).1
  · exact (c5_hook_wrapping_double_invoke allFuncObj "warn" demoFn
      [JSVal.vatom (JSAtom.anum 7)] (by decide) rfl).2

/-- Claim C9 counterexample: a value whose `log` and `error` properties exist
but are plain numbers passes `isConsoleInstance`, so the check is not
equivalent to exposing the two methods implemented as callables. -/
theorem c9_capability_check_counterexample :
    ¬ (isConsoleInstance c9Value = true ↔
        (claimHasCallable c9Value "log" = true ∧ claimHasCallable c9Value "error" = true)) := by
  decide

/-- Claim C9 amended: `isConsoleInstance` returns true exactly when the value
is a non-null object-typed value exposing properties named `log` and `error`,
whether or not those properties are callable. -/
theorem c9_capability_check_amended (v : JSVal) :
    isConsoleInstance v
      = (claimIsNonNullObject v && claimHasProp v "log" && claimHasProp v "error") := by
  cases v with
  | vatom a => cases a <;> rfl
  | vobj fields =>
      have hne : (JSVal.vobj fields != JSVal.vatom JSAtom.anull) = true := by
        simp [bne_iff_ne]
      simp [isConsoleInstance, claimIsNonNullObject, claimHasProp, JSVal.typeof, hne]
  | varr elems => rfl

/-- Claim C8: `patch` with only a context replaces the context wholesale and
leaves surface, timer registry and method snapshot untouched; `patch` with a
console reference re-derives the proxy surface and touches nothing else;
omitted parameters change nothing; and the constructor's
`{...consoleInstance}` snapshot is taken from the heap at configuration time,
so later mutation of the backing object changes neither the snapshot nor the
behaviour of hook-mode dispatch. -/
theorem c8_reconfiguration_frame (st : ConsoleMonkeyPatch) (c : WritableContext)
    (oid : Nat) (hm : Bool) (h : Heap) (ctx0 : Option WritableContext) :
    (patch (some c) none hm st).context = c
    ∧ (patch (some c) none hm st).console = st.console
    ∧ (patch (some c) none hm st).timers = st.timers
    ∧ (patch (some c) none hm st).original = st.original
    ∧ (patch none (some oid) hm st).console = ConsoleSurface.proxy oid hm
    ∧ (patch none (some oid) hm st).context = st.context
    ∧ (patch none (some oid) hm st).timers = st.timers
    ∧ (patch none (some oid) hm st).original = st.original
    ∧ patch none none hm st = st
    ∧ (mkConsoleMonkeyPatch h ctx0 (some oid) hm).original = h oid
    ∧ (∀ m2 : ObjMap,
        (mutateObject (mkConsoleMonkeyPatch h ctx0 (some oid) hm, h) oid m2).1.original = h oid
        ∧ (mutateObject (mkConsoleMonkeyPatch h ctx0 (some oid) hm, h) oid m2).2 oid = m2
        ∧ (∀ method hm2 args,
            logOrSend method hm2 args
                (mutateObject (mkConsoleMonkeyPatch h ctx0 (some oid) hm, h) oid m2).1
              = logOrSend method hm2 args (mkConsoleMonkeyPatch h ctx0 (some oid) hm))) := by
  refine ⟨rfl, rfl, rfl, rfl, rfl, rfl, rfl, rfl, rfl, rfl, fun m2 => ⟨rfl, ?_, fun _ _ _ => rfl⟩⟩
  simp [mutateObject, heapWrite]

/-- GetSubstitution is the identity on replacement strings containing no
dollar character. -/
theorem getSubstitution_no_dollar (matched before after : List Char) :
    ∀ l : List Char, (∀ c ∈ l, c ≠ '$') → getSubstitution matched before after l = l
  | [], _ => rfl
  | [_], _ => rfl
  | c :: d :: rest, h => by
      have hc : c ≠ '$' := h c (by simp)
      have hrest : ∀ x ∈ d :: rest, x ≠ '$' := fun x hx => h x (by simp [hx])
      simp only [getSubstitution, if_neg hc]
      rw [getSubstitution_no_dollar matched before after (d :: rest) hrest]

/-- Replacing the pattern in the exact format string "%o" yields the
replacement itself whenever the replacement contains no dollar character. -/
theorem replaceFirst_percent_o (j : String) (h : ∀ c ∈ j.data, c ≠ '$') :
    replaceFirst "%o" "%o" j = j := by
  have hs : splitFirst ("%o" : String).data ("%o" : String).data = some ([], []) := rfl
  simp only [replaceFirst, hs]
  rw [getSubstitution_no_dollar _ _ _ _ h, strMkData]
  have hm : (String.mk [] : String) = "" := rfl
  rw [hm, strEmptyAppend, strAppendEmpty]

/-- An object's JSON serialization ends in a closing brace, hence in a
non-whitespace character. -/
theorem lastNonWs_jsonStringify_vobj (fields : List (String × JSAtom)) :
    lastNonWs (jsonStringify (JSVal.vobj fields)) = true := by
  have hshape : jsonStringify (JSVal.vobj fields)
      = ("\x7b" ++ sepJoin "," ((fields.filter (fun kv => !kv.2.isFunc)).map jsonField))
          ++ "\x7d" := rfl
  rw [hshape]
  exact lastNonWs_append _ _ rfl

/-- The failure message built from a "%o" format string and an object whose
JSON serialization contains no dollar character (so GetSubstitution leaves
it unchanged). -/
theorem assertMessage_percent_obj (fields : List (String × JSAtom))
    (hnd : ∀ c ∈ (jsonStringify (JSVal.vobj fields)).data, c ≠ '$') :
    assertMessage [JSVal.vatom (JSAtom.astr "%o"), JSVal.vobj fields]
      = "Assertion failed: " ++ jsonStringify (JSVal.vobj fields) := by
  have h1 : assertFirstIsFormat [JSVal.vatom (JSAtom.astr "%o"), JSVal.vobj fields]
      = some "%o" := rfl
  have h2 : jsonForReplaceOpt
      (([JSVal.vatom (JSAtom.astr "%o"), JSVal.vobj fields] : List JSVal).get? 1)
      = jsonStringify (JSVal.vobj fields) := rfl
  simp only [assertMessage, h1, h2]
  rw [replaceFirst_percent_o _ hnd]

/-- Claim C4 counterexample: `String.prototype.replace` applies
dollar-pattern substitution to its replacement string, so for the object
whose single field "a" holds the string "$&" — a JSON serialization
containing the dollar-ampersand pattern — `assert(false, "%o", obj)` writes
the line "LOG: Assertion failed: \x7b"a":"%o"\x7d", which does not contain
"Assertion failed: " followed by the JSON serialization of the object. -/
theorem c4_assert_counterexample :
    jsonStringify (JSVal.vobj [("a", JSAtom.astr "$&")]) = "\x7b\"a\":\"$&\"\x7d"
    ∧ (assertImpl false false [JSVal.vatom (JSAtom.astr "%o"),
          JSVal.vobj [("a", JSAtom.astr "$&")]] demoEngine).state.context.stdout
        = Sink.str "LOG: Assertion failed: \x7b\"a\":\"%o\"\x7d\n"
    ∧ strIncludes "LOG: Assertion failed: \x7b\"a\":\"%o\"\x7d"
        ("Assertion failed: " ++ jsonStringify (JSVal.vobj [("a", JSAtom.astr "$&")]))
        = false := by
  decide

/-- Claim C4 amended: `assert(true, ...)` is a complete no-op for every data
list; `assert(false, "%o", obj)` appends exactly one line to the standard
channel — "LOG: Assertion failed: " followed by the JSON serialization of
`obj` as processed by replace's dollar-pattern substitution, so exactly the
JSON of `obj` whenever that serialization contains no dollar character —
leaving the error channel untouched; with a format string containing "%o" the
substituted message is sent through the standard-log path; and otherwise the
message is all data arguments space-joined with object-typed ones
JSON-serialized, prefixed by "Assertion failed:", sent through the
standard-log path. -/
theorem c4_assert_behaviour_amended (hm : Bool) :
    (∀ data st, assertImpl hm true data st = { state := st, hookCalls := [], ret := none })
    ∧ (∀ fields st so, (∀ c ∈ (jsonStringify (JSVal.vobj fields)).data, c ≠ '$') →
        st.context.stdout = Sink.str so →
        (assertImpl hm false [JSVal.vatom (JSAtom.astr "%o"), JSVal.vobj fields]
            st).state.context.stdout
            = Sink.str (so ++ ("LOG: " ++ ("Assertion failed: "
                ++ jsonStringify (JSVal.vobj fields))) ++ "\n")
          ∧ (assertImpl hm false [JSVal.vatom (JSAtom.astr "%o"), JSVal.vobj fields]
              st).state.context.stderr
            = st.context.stderr)
    ∧ (∀ fs data st, strIncludes fs "%o" = true →
        assertImpl hm false (JSVal.vatom (JSAtom.astr fs) :: data) st
          = logOrSend "log" hm [JSVal.vatom (JSAtom.astr ("Assertion failed: "
              ++ replaceFirst fs "%o"
                  (jsonForReplaceOpt ((JSVal.vatom (JSAtom.astr fs) :: data).get? 1))))] st)
    ∧ (∀ data st, assertFirstIsFormat data = none →
        assertImpl hm false data st
          = logOrSend "log" hm [JSVal.vatom (JSAtom.astr ("Assertion failed: "
              ++ sepJoin " " (data.map assertJoinPiece)))] st) := by
  refine ⟨fun data st => rfl, ?_, ?_, ?_⟩
  · intro fields st so hnd hso
    have hA : assertImpl hm false [JSVal.vatom (JSAtom.astr "%o"), JSVal.vobj fields] st
        = logOrSend "log" hm [JSVal.vatom (JSAtom.astr ("Assertion failed: "
            ++ jsonStringify (JSVal.vobj fields)))] st := by
      have h0 : assertImpl hm false [JSVal.vatom (JSAtom.astr "%o"), JSVal.vobj fields] st
          = logOrSend "log" hm [JSVal.vatom (JSAtom.astr (assertMessage
              [JSVal.vatom (JSAtom.astr "%o"), JSVal.vobj fields]))] st := rfl
      rw [h0, assertMessage_percent_obj fields hnd]
    have hhead : headNonWs ("Assertion failed: " ++ jsonStringify (JSVal.vobj fields)) = true :=
      headNonWs_append _ _ rfl
    have hlast : lastNonWs ("Assertion failed: " ++ jsonStringify (JSVal.vobj fields)) = true :=
      lastNonWs_append _ _ (lastNonWs_jsonStringify_vobj fields)
    have hfmt := formatLine_single_clean _ hhead hlast
    constructor
    · rw [hA, logOrSend_state,
        writeToTarget_std_str "log" _ st.context so rfl hso, hfmt]
    · rw [hA, logOrSend_state, writeToTarget_std_str "log" _ st.context so rfl hso]
  · intro fs data st hfs
    have h0 : assertImpl hm false (JSVal.vatom (JSAtom.astr fs) :: data) st
        = logOrSend "log" hm [JSVal.vatom (JSAtom.astr (assertMessage
            (JSVal.vatom (JSAtom.astr fs) :: data)))] st := rfl
    have hf : assertFirstIsFormat (JSVal.vatom (JSAtom.astr fs) :: data) = some fs := by
      show (if strIncludes fs "%o" = true then some fs else none) = some fs
      rw [if_pos hfs]
    rw [h0]
    simp only [assertMessage, hf]
  · intro data st hnone
    have h0 : assertImpl hm false data st
        = logOrSend "log" hm [JSVal.vatom (JSAtom.astr (assertMessage data))] st := rfl
    rw [h0]
    simp only [assertMessage, hnone]

/-- Witness for the amended claim C4 at concrete inputs, matching the
repository's own test (`assert(false, "%o", { ... })` on a dollar-free
object). -/
theorem c4_assert_behaviour_amended_witness :
    demoEngine.context.stdout = Sink.str ""
    ∧ (∀ c ∈ (jsonStringify (JSVal.vobj [("n", JSAtom.anum 3)])).data, c ≠ '$')
    ∧ assertImpl false true [JSVal.vatom (JSAtom.anum 1)] demoEngine
        = { state := demoEngine, hookCalls := [], ret := none }
    ∧ (assertImpl false false [JSVal.vatom (JSAtom.astr "%o"),
          JSVal.vobj [("n", JSAtom.anum 3)]] demoEngine).state.context.stdout
        = Sink.str ("" ++ ("LOG: " ++ ("Assertion failed: "
            ++ jsonStringify (JSVal.vobj [("n", JSAtom.anum 3)]))) ++ "\n")
    ∧ assertFirstIsFormat [JSVal.vatom (JSAtom.anum 2)] = none
    ∧ assertImpl false false [JSVal.vatom (JSAtom.anum 2)] demoEngine
        = logOrSend "log" false [JSVal.vatom (JSAtom.astr ("Assertion failed: "
            ++ sepJoin " " (([JSVal.vatom (JSAtom.anum 2)] : List JSVal).map
              assertJoinPiece)))] demoEngine := by
  refine ⟨rfl, by decide, ?_, ?_, rfl, ?_⟩
  · exact (c4_assert_behaviour_amended false).1 _ _
  · exact ((c4_assert_behaviour_amended false).2.1 _ demoEngine "" (by decide) rfl).1
  · exact (c4_assert_behaviour_amended false).2.2.2 _ demoEngine rfl

/-- Ending a timer whose label is not registered reports a does-not-exist
message through the error path. -/
theorem timeEndImpl_absent (hm : Bool) (L : String) (now : Int) (st : ConsoleMonkeyPatch)
    (h : st.timers.lookup L = none) :
    timeEndImpl hm (JSVal.vatom (JSAtom.astr L)) now st
      = logOrSend "error" hm [JSVal.vatom (JSAtom.astr
          ("Timer \x27" ++ L ++ "\x27 does not exist"))] st := by
  unfold timeEndImpl
  simp only [JSVal.templateText, JSAtom.templateText]
  rw [h]

/-- Claim C6: starting a timer whose label is already registered reports an
already-exists message on the error channel and leaves the timer registry —
hence the stored start timestamp — unchanged; ending a registered timer
removes its entry and emits "<label>: <duration>ms" (elapsed milliseconds)
through the standard-log path, so that an immediately subsequent `timeEnd`
with the same label reports a does-not-exist message on the error channel. -/
theorem c6_timer_protocol (L : String) (t0 now now2 : Int) (hm : Bool)
    (st : ConsoleMonkeyPatch) (so se : String)
    (hso : st.context.stdout = Sink.str so) (hse : st.context.stderr = Sink.str se)
    (hreg : st.timers.lookup L = some t0) :
    (timeImpl hm (JSVal.vatom (JSAtom.astr L)) now st).state.timers = st.timers
    ∧ (timeImpl hm (JSVal.vatom (JSAtom.astr L)) now st).state.context.stderr
        = Sink.str (se ++ formatLine [JSVal.vatom (JSAtom.astr
            ("Timer \x27" ++ L ++ "\x27 already exists"))] ++ "\n")
    ∧ (timeImpl hm (JSVal.vatom (JSAtom.astr L)) now st).state.context.stdout = Sink.str so
    ∧ (timeEndImpl hm (JSVal.vatom (JSAtom.astr L)) now st).state.timers.lookup L = none
    ∧ (timeEndImpl hm (JSVal.vatom (JSAtom.astr L)) now st).state.context.stdout
        = Sink.str (so ++ formatLine [JSVal.vatom (JSAtom.astr
            (L ++ ": " ++ toString (now - t0) ++ "ms"))] ++ "\n")
    ∧ (timeEndImpl hm (JSVal.vatom (JSAtom.astr L)) now st).state.context.stderr = Sink.str se
    ∧ (timeEndImpl hm (JSVal.vatom (JSAtom.astr L)) now2
          (timeEndImpl hm (JSVal.vatom (JSAtom.astr L)) now st).state).state.context.stderr
        = Sink.str (se ++ formatLine [JSVal.vatom (JSAtom.astr
            ("Timer \x27" ++ L ++ "\x27 does not exist"))] ++ "\n") := by
  have hA : timeImpl hm (JSVal.vatom (JSAtom.astr L)) now st
      = logOrSend "error" hm [JSVal.vatom (JSAtom.astr
          ("Timer \x27" ++ L ++ "\x27 already exists"))] st := by
    unfold timeImpl
    simp only [JSVal.templateText, JSAtom.templateText]
    rw [hreg]
    rfl
  have hB : timeEndImpl hm (JSVal.vatom (JSAtom.astr L)) now st
      = logOrSend "log" hm [JSVal.vatom (JSAtom.astr
          (L ++ ": " ++ toString (now - t0) ++ "ms"))]
          { st with timers := st.timers.filter (fun p => p.1 != L) } := by
    unfold timeEndImpl
    simp only [JSVal.templateText, JSAtom.templateText]
    rw [hreg]
  have h4 : (timeEndImpl hm (JSVal.vatom (JSAtom.astr L)) now st).state.timers.lookup L
      = none := by
    rw [hB, logOrSend_state]
    exact lookup_filter_ne L st.timers
  have h6 : (timeEndImpl hm (JSVal.vatom (JSAtom.astr L)) now st).state.context.stderr
      = Sink.str se := by
    rw [hB, logOrSend_state, writeToTarget_std_str "log" _ _ so rfl hso]
    exact hse
  have hC : timeEndImpl hm (JSVal.vatom (JSAtom.astr L)) now2
        (timeEndImpl hm (JSVal.vatom (JSAtom.astr L)) now st).state
      = logOrSend "error" hm [JSVal.vatom (JSAtom.astr
          ("Timer \x27" ++ L ++ "\x27 does not exist"))]
          (timeEndImpl hm (JSVal.vatom (JSAtom.astr L)) now st).state :=
    timeEndImpl_absent hm L now2 _ h4
  refine ⟨?_, ?_, ?_, h4, ?_, h6, ?_⟩
  · rw [hA, logOrSend_state]
  · rw [hA, logOrSend_state, writeToTarget_err_str "error" _ _ se rfl hse]
  · rw [hA, logOrSend_state, writeToTarget_err_str "error" _ _ se rfl hse]
    rw [hso]
  · rw [hB, logOrSend_state, writeToTarget_std_str "log" _ _ so rfl hso]
  · rw [hC, logOrSend_state, writeToTarget_err_str "error" _ _ se rfl h6]

/-- Witness for claim C6: a concrete engine with the timer "a" registered at
time 5, probed at times 9 and 11. -/
theorem c6_timer_protocol_witness :
    demoEngine.timers.lookup "a" = some 5
    ∧ (timeImpl false (JSVal.vatom (JSAtom.astr "a")) 9 demoEngine).state.timers
        = demoEngine.timers
    ∧ (timeEndImpl false (JSVal.vatom (JSAtom.astr "a")) 9 demoEngine).state.timers.lookup "a"
        = none
    ∧ (timeEndImpl false (JSVal.vatom (JSAtom.astr "a")) 9 demoEngine).state.context.stdout
        = Sink.str ("" ++ formatLine [JSVal.vatom (JSAtom.astr
            ("a" ++ ": " ++ toString ((9 : Int) - 5) ++ "ms"))] ++ "\n")
    ∧ (timeEndImpl false (JSVal.vatom (JSAtom.astr "a")) 11
          (timeEndImpl false (JSVal.vatom (JSAtom.astr "a")) 9 demoEngine).state).state.context.stderr
        = Sink.str ("" ++ formatLine [JSVal.vatom (JSAtom.astr
            ("Timer \x27" ++ "a" ++ "\x27 does not exist"))] ++ "\n") := by
  have h := c6_timer_protocol "a" 5 9 11 false demoEngine "" "" rfl rfl rfl
  exact ⟨rfl, h.1, h.2.2.2.1, h.2.2.2.2.1, h.2.2.2.2.2.2⟩

/-- Claim C7 counterexample: with hook mode on and a backing `table` method
captured, `table` invokes the backing method with the JSON-serialized text
"[1]" in place of the caller's original array argument, so the backing method
does not receive the original argument list unchanged. -/
theorem c7_hook_forwarding_counterexample :
    (tableImpl true (JSVal.varr [JSAtom.anum 1]) [] c7Engine).hookCalls
        = [("table", [JSVal.vatom (JSAtom.astr "[1]")])]
    ∧ (tableImpl true (JSVal.varr [JSAtom.anum 1]) [] c7Engine).hookCalls
        ≠ [("table", [JSVal.varr [JSAtom.anum 1]])] := by
  decide

/-- Claim C7 amended: with hook mode on and the snapshot exposing the method
as a callable, every operation that delegates its argument list directly to
`logOrSend` (log, info, debug, error, warn, group, groupEnd — any method
name) invokes the backing method exactly once with the caller's original
arguments unchanged; `table` instead forwards the JSON-serialized tabular
argument followed by the remaining arguments, and `trace` forwards the
original arguments with the captured stack-trace text appended. -/
theorem c7_hook_forwarding_amended (st : ConsoleMonkeyPatch) :
    (∀ method args f, st.original method = some (JSProp.func f) →
        (logOrSend method true args st).hookCalls = [(method, args)])
    ∧ (∀ data params f, st.original "table" = some (JSProp.func f) →
        (tableImpl true data params st).hookCalls
          = [("table", JSVal.vatom (JSAtom.astr (jsonStringify data)) :: params)])
    ∧ (∀ args s f, st.original "trace" = some (JSProp.func f) → s ≠ "" →
        (traceImpl true args (some s) st).hookCalls
          = [("trace", args ++ [JSVal.vatom (JSAtom.astr s)])]) := by
  refine ⟨?_, ?_, ?_⟩
  · intro method args f h
    exact logOrSend_hookCalls_func method args st f h
  · intro data params f h
    unfold tableImpl
    exact logOrSend_hookCalls_func _ _ st f h
  · intro args s f h hs
    show (logOrSend "trace" true (args ++ [JSVal.vatom (JSAtom.astr
        (if s = "" then "No stack trace available" else s))]) st).hookCalls = _
    rw [if_neg hs]
    exact logOrSend_hookCalls_func _ _ st f h

/-- Witness for the amended claim C7 at concrete calls on a hook-mode engine
whose snapshot has every method. -/
theorem c7_hook_forwarding_amended_witness :
    c7Engine.original "log" = some (JSProp.func demoFn)
    ∧ (logOrSend "log" true [JSVal.vatom (JSAtom.astr "m")] c7Engine).hookCalls
        = [("log", [JSVal.vatom (JSAtom.astr "m")])]
    ∧ (tableImpl true (JSVal.varr [JSAtom.anum 2]) [] c7Engine).hookCalls
        = [("table", JSVal.vatom (JSAtom.astr (jsonStringify (JSVal.varr [JSAtom.anum 2]))) :: [])]
    ∧ ("stacktext" ≠ "")
    ∧ (traceImpl true [] (some "stacktext") c7Engine).hookCalls
        = [("trace", [] ++ [JSVal.vatom (JSAtom.astr "stacktext")])] := by
  refine ⟨rfl, ?_, ?_, by decide, ?_⟩
  · exact (c7_hook_forwarding_amended c7Engine).1 "log" [JSVal.vatom (JSAtom.astr "m")] demoFn rfl
  · exact (c7_hook_forwarding_amended c7Engine).2.1 (JSVal.varr [JSAtom.anum 2]) [] demoFn rfl
  · exact (c7_hook_forwarding_amended c7Engine).2.2 [] "stacktext" demoFn rfl (by decide)
